import Mathlib

/-!
Shallow embedding of `ChatDataset.__iter__` from
`src/nanotron/data/chat_dataset.py` (NousResearch/nanotron), together with
the label / position policy functions it dispatches to.  The packing path
(lines 108-140) is embedded as a step function on an explicit buffer state;
the non-packing path (lines 141-168) as a pure transform of one tokenized
sample.  Python slice semantics (`xs[:-k]`, which is empty when `k = 0`)
are modelled explicitly.
-/

namespace ChatData

/-- A tokenized sample as returned by the external `ChatTokenizer`:
`tokens, is_completition = self.chat_tokenizer(...)` (line 100). -/
structure Sample where
  tokens : List Int
  is_completition : List Bool
deriving Repr, DecidableEq

/-- The mutable buffer state of the packing path: `buffer_tokens`,
`buffer_is_completition`, `buffer_lengths` (lines 93-95). -/
structure PackState where
  buffer_tokens : List Int
  buffer_is_completition : List Bool
  buffer_lengths : List Nat
deriving Repr, DecidableEq

/-- Initial buffer state (lines 93-95: all three buffers empty). -/
def packInit : PackState := ⟨[], [], []⟩

/-- Configuration surface of `ChatDataset` relevant to `__iter__`. -/
structure Config where
  sequence_length : Nat
  train_on_completions_only : Bool
  remove_cross_attention : Bool
  sp_ranks_size : Nat
  pad_token_id : Int
deriving Repr, DecidableEq

/-- `self.sp_chunks = sp_ranks_size * 2 if sp_ranks_size > 1 else 1` (line 68). -/
def sp_chunks (sp_ranks_size : Nat) : Nat :=
  if sp_ranks_size > 1 then sp_ranks_size * 2 else 1

/-- Python slice `xs[:-k]` on a list: empty when `k = 0` (since `-0 == 0`),
otherwise the first `len(xs) - k` elements (clamped at `0`). -/
def sliceDropLast {α : Type} (xs : List α) (k : Nat) : List α :=
  if k = 0 then [] else xs.take (xs.length - k)

/-- Modelled from the spec: `build_labels` lives in `nanotron/data/collator.py`,
which is not under `src/`.  Spec 4.2 (Full variant): "every position after the
shift is trainable (mask always 1), ignoring the completion flags", returning
"a boolean/int sequence of the same length as `tokens`". -/
def build_labels (tokens : List Int) (is_completition : List Bool) : List Bool :=
  tokens.map (fun _ => true)

/-- Modelled from the spec: `build_labels_completions_only` lives in
`nanotron/data/collator.py`, which is not under `src/`.  Spec 4.2
(CompletionsOnly): "a position is trainable only if it lies within a
completion span", with the spec 8 literal vector
`[F,F,T,T] -> mask [0,0,1,1]`, i.e. the mask is the completion flags. -/
def build_labels_completions_only (tokens : List Int) (is_completition : List Bool) :
    List Bool :=
  is_completition

/-- Modelled from the spec: `build_position_ids` lives in
`nanotron/data/collator.py`, which is not under `src/`.  Spec 4.3
(Reset-at-boundary): "position ids restart at 0 at the start of each
sub-sample within the window", covering the full packed window. -/
def build_position_ids (sample_lengths : List Nat) (sequence_length : Nat) :
    List Nat :=
  sample_lengths.flatMap (fun l => List.range l)

/-- Modelled from the spec: `build_position_ids_dummy` lives in
`nanotron/data/collator.py`, which is not under `src/`.  Spec 4.3
(Continuous): "position ids increase monotonically across the whole window
regardless of sample boundaries", covering the full packed window. -/
def build_position_ids_dummy (sample_lengths : List Nat) (sequence_length : Nat) :
    List Nat :=
  List.range sample_lengths.sum

/-- `self.create_labels` selected at construction (lines 76-79). -/
def create_labels (cfg : Config) : List Int → List Bool → List Bool :=
  if cfg.train_on_completions_only then build_labels_completions_only else build_labels

/-- `self.create_position_ids` selected at construction (lines 82-85). -/
def create_position_ids (cfg : Config) : List Nat → Nat → List Nat :=
  if cfg.remove_cross_attention then build_position_ids else build_position_ids_dummy

/-- `max_buffer_token_len = 1 + self.sequence_length` (line 92). -/
def max_buffer_token_len (cfg : Config) : Nat := 1 + cfg.sequence_length

/-- The append phase of the packing path (lines 109-111): extend
`buffer_tokens` and `buffer_is_completition` with the sample, record its
token length in `buffer_lengths`. -/
def packAppend (st : PackState) (s : Sample) : PackState :=
  { buffer_tokens := st.buffer_tokens ++ s.tokens
    buffer_is_completition := st.buffer_is_completition ++ s.is_completition
    buffer_lengths := st.buffer_lengths ++ [s.tokens.length] }

/-- What the packing path hands to the label / position policies when it
emits: `sample_tokens`, `sample_completitions`, `sample_lengths`
(lines 115-117). -/
structure PackedBatch where
  sample_tokens : List Int
  sample_completitions : List Bool
  sample_lengths : List Nat
deriving Repr, DecidableEq

/-- One invocation of the packing path for one incoming sample, before the
label / position policies are applied (lines 109-125): append, test
`len(buffer_tokens) > max_buffer_token_len`, and on overflow slice off the
last sample (Python `[:-len(tokens)]` / `[:-1]`) and reset the buffers to
exactly the overflowing sample. -/
def packStepCore (maxLen : Nat) (st : PackState) (s : Sample) :
    PackState × Option PackedBatch :=
  let b := packAppend st s
  if b.buffer_tokens.length > maxLen then
    let sample_tokens := sliceDropLast b.buffer_tokens s.tokens.length
    let sample_completitions := sliceDropLast b.buffer_is_completition s.tokens.length
    let sample_lengths := b.buffer_lengths.dropLast
    (⟨s.tokens, s.is_completition, [s.tokens.length]⟩,
      some ⟨sample_tokens, sample_completitions, sample_lengths⟩)
  else
    (b, none)

/-- The window yielded by the packing path (lines 136-140): `input_ids`,
`label_mask` (ints in `{0,1}` from the label policy's booleans),
`position_ids`. -/
structure PackedWindow where
  input_ids : List Int
  label_mask : List Nat
  position_ids : List Nat
deriving Repr, DecidableEq

/-- Turn an emitted batch into the yielded window (lines 128-140):
`create_labels` (line 128), `create_position_ids` (line 131) and the
`[1 if x else 0 ...]` conversion (line 138). -/
def windowOf (cfg : Config) (b : PackedBatch) : PackedWindow :=
  { input_ids := b.sample_tokens
    label_mask := (create_labels cfg b.sample_tokens b.sample_completitions).map
      (fun x => if x then 1 else 0)
    position_ids := create_position_ids cfg b.sample_lengths cfg.sequence_length }

/-- One invocation of the packing path for one incoming sample, yielding the
finished window when the buffer overflows (lines 108-140): the core step
followed by the label / position policies. -/
def packStep (cfg : Config) (st : PackState) (s : Sample) :
    PackState × Option PackedWindow :=
  let (st', batch) := packStepCore (max_buffer_token_len cfg) st s
  (st', batch.map (windowOf cfg))

/-- Run the packing path over a finite stream of tokenized samples,
collecting every emitted batch in order (core level, before policies). -/
def packRunCore (maxLen : Nat) (st : PackState) :
    List Sample → PackState × List PackedBatch
  | [] => (st, [])
  | s :: ss =>
    let (st', b) := packStepCore maxLen st s
    let (st'', bs) := packRunCore maxLen st' ss
    (st'', b.toList ++ bs)

/-- Run the packing path over a finite stream of tokenized samples,
collecting every emitted window in order. -/
def packRun (cfg : Config) (st : PackState) :
    List Sample → PackState × List PackedWindow
  | [] => (st, [])
  | s :: ss =>
    let (st', w) := packStep cfg st s
    let (st'', ws) := packRun cfg st' ss
    (st'', w.toList ++ ws)

/-- The item yielded by the non-packing path (lines 164-168). -/
structure NonPackedItem where
  input_ids : List Int
  input_mask : List Nat
  label_mask : List Nat
deriving Repr, DecidableEq

/-- The non-packing path (lines 141-168): apply the label policy, build the
all-ones `input_mask`, pad up to a multiple of `sp_chunks` with pad token /
`False` / `0`, append one extra pad position when `sp_chunks > 1`, and turn
the completion booleans into the `{0,1}` `label_mask`. -/
def nonPackItem (cfg : Config) (s : Sample) : NonPackedItem :=
  let c := sp_chunks cfg.sp_ranks_size
  let is_completition := create_labels cfg s.tokens s.is_completition
  let tokens := s.tokens
  let input_mask : List Nat := List.replicate tokens.length 1
  let rem := tokens.length % c
  let padded :=
    if rem ≠ 0 then
      let pad_amount := c - rem
      (tokens ++ List.replicate pad_amount cfg.pad_token_id,
       is_completition ++ List.replicate pad_amount false,
       input_mask ++ List.replicate pad_amount 0)
    else (tokens, is_completition, input_mask)
  let final :=
    if c > 1 then
      (padded.1 ++ [cfg.pad_token_id], padded.2.1 ++ [false], padded.2.2 ++ [0])
    else padded
  { input_ids := final.1
    input_mask := final.2.2
    label_mask := final.2.1.map (fun x => if x then 1 else 0) }

/-- Emitter state: the packing buffers plus the position of the source
stream; the `while True … for sample in iter(self.dataset)` loop (lines
98-99, 172) restarts the source from its first record on exhaustion while
the buffers persist across the boundary. -/
structure EmitterState where
  pack : PackState
  idx : Nat
deriving Repr, DecidableEq

/-- One pull-and-process step of the emitter over a finite record source:
on exhaustion (`idx ≥ length`) the source restarts at record `0` (the `for`
loop is re-entered, line 99), and the packing buffers are carried over
unchanged.  An empty source is a no-op (the `for` body never runs). -/
def emitterStep (cfg : Config) (records : List Sample) (e : EmitterState) :
    EmitterState × Option PackedWindow :=
  let i := if e.idx < records.length then e.idx else 0
  match records[i]? with
  | none => (e, none)
  | some s =>
    let (st', w) := packStep cfg e.pack s
    (⟨st', i + 1⟩, w)

end ChatData

namespace ChatData

/-! ### Contracts and invariants -/

/-- Tokenizer contract (spec 6): `tokens` and `is_completion` have the same
length for every sample. -/
def TokLenMatch (s : Sample) : Prop := s.tokens.length = s.is_completition.length

/-- A sample's own length fits in one window: at most `sequence_length + 1`. -/
def SampleFits (cfg : Config) (s : Sample) : Prop :=
  s.tokens.length ≤ cfg.sequence_length + 1

/-- The buffer invariant of spec 3:
`sum(sample_lengths) == len(tokens) == len(is_completion)`. -/
def BufInv (st : PackState) : Prop :=
  st.buffer_lengths.sum = st.buffer_tokens.length ∧
  st.buffer_tokens.length = st.buffer_is_completition.length

/-- The sum half of the buffer invariant (no claim about the flags). -/
def SumInv (st : PackState) : Prop :=
  st.buffer_lengths.sum = st.buffer_tokens.length

/-! ### Slice lemmas -/

theorem sliceDropLast_append_self {α : Type} (B t : List α) (h : 0 < t.length) :
    sliceDropLast (B ++ t) t.length = B := by
  unfold sliceDropLast
  rw [if_neg (Nat.pos_iff_ne_zero.mp h), List.length_append, Nat.add_sub_cancel,
    List.take_left]

theorem sliceDropLast_self {α : Type} (xs : List α) :
    sliceDropLast xs xs.length = [] := by
  unfold sliceDropLast
  split
  · rfl
  · simp

/-! ### Step lemmas -/

theorem packStepCore_emit_eq (maxLen : Nat) (st : PackState) (s : Sample)
    (h : maxLen < st.buffer_tokens.length + s.tokens.length) :
    packStepCore maxLen st s =
      (⟨s.tokens, s.is_completition, [s.tokens.length]⟩,
        some ⟨sliceDropLast (st.buffer_tokens ++ s.tokens) s.tokens.length,
              sliceDropLast (st.buffer_is_completition ++ s.is_completition)
                s.tokens.length,
              (st.buffer_lengths ++ [s.tokens.length]).dropLast⟩) := by
  simp only [packStepCore, packAppend]
  rw [if_pos (by simpa [List.length_append] using h)]

theorem packStepCore_noemit_eq (maxLen : Nat) (st : PackState) (s : Sample)
    (h : ¬ maxLen < st.buffer_tokens.length + s.tokens.length) :
    packStepCore maxLen st s = (packAppend st s, none) := by
  simp only [packStepCore, packAppend]
  rw [if_neg (by simpa [List.length_append] using h)]

theorem packStepCore_emit_batch (maxLen : Nat) (st : PackState) (s : Sample)
    (hp : 0 < s.tokens.length) (hm : TokLenMatch s)
    (h : maxLen < st.buffer_tokens.length + s.tokens.length) :
    packStepCore maxLen st s =
      (⟨s.tokens, s.is_completition, [s.tokens.length]⟩,
        some ⟨st.buffer_tokens, st.buffer_is_completition, st.buffer_lengths⟩) := by
  rw [packStepCore_emit_eq maxLen st s h,
    sliceDropLast_append_self _ _ hp, hm,
    sliceDropLast_append_self _ _ (hm ▸ hp)]
  simp

/-! ### Policy lengths -/

theorem create_labels_length (cfg : Config) (a : List Int) (c : List Bool)
    (h : c.length = a.length) : (create_labels cfg a c).length = a.length := by
  unfold create_labels build_labels build_labels_completions_only
  split <;> simp [h]

theorem create_position_ids_length (cfg : Config) (L : List Nat) (n : Nat) :
    (create_position_ids cfg L n).length = L.sum := by
  unfold create_position_ids build_position_ids build_position_ids_dummy
  split <;> simp [Function.comp_def]

end ChatData

namespace ChatData

/-! ### Equation lemmas for the runs -/

theorem packStep_eq (cfg : Config) (st : PackState) (s : Sample) :
    packStep cfg st s =
      ((packStepCore (max_buffer_token_len cfg) st s).1,
       ((packStepCore (max_buffer_token_len cfg) st s).2).map (windowOf cfg)) := rfl

theorem packRunCore_nil (maxLen : Nat) (st : PackState) :
    packRunCore maxLen st [] = (st, []) := rfl

theorem packRunCore_cons (maxLen : Nat) (st : PackState) (s : Sample)
    (ss : List Sample) :
    packRunCore maxLen st (s :: ss) =
      ((packRunCore maxLen (packStepCore maxLen st s).1 ss).1,
       (packStepCore maxLen st s).2.toList ++
         (packRunCore maxLen (packStepCore maxLen st s).1 ss).2) := rfl

theorem packRun_nil (cfg : Config) (st : PackState) :
    packRun cfg st [] = (st, []) := rfl

theorem packRun_cons (cfg : Config) (st : PackState) (s : Sample)
    (ss : List Sample) :
    packRun cfg st (s :: ss) =
      ((packRun cfg (packStep cfg st s).1 ss).1,
       (packStep cfg st s).2.toList ++ (packRun cfg (packStep cfg st s).1 ss).2) := rfl

theorem packRun_eq_core (cfg : Config) (ss : List Sample) : ∀ st : PackState,
    packRun cfg st ss =
      ((packRunCore (max_buffer_token_len cfg) st ss).1,
       (packRunCore (max_buffer_token_len cfg) st ss).2.map (windowOf cfg)) := by
  induction ss with
  | nil => intro st; rfl
  | cons s ss ih =>
    intro st
    rw [packRun_cons, packRunCore_cons, packStep_eq, ih]
    cases (packStepCore (max_buffer_token_len cfg) st s).2 <;> simp

/-! ### The sum invariant through a run -/

theorem packRunCore_sum (maxLen : Nat) (ss : List Sample) : ∀ st : PackState,
    SumInv st → (∀ s ∈ ss, 0 < s.tokens.length) →
    SumInv (packRunCore maxLen st ss).1 ∧
    ∀ b ∈ (packRunCore maxLen st ss).2,
      b.sample_lengths.sum = b.sample_tokens.length := by
  induction ss with
  | nil =>
    intro st hInv _
    exact ⟨hInv, by simp [packRunCore_nil]⟩
  | cons s ss ih =>
    intro st hInv hpos
    have hps : 0 < s.tokens.length := hpos s (by simp)
    have hrest : ∀ t ∈ ss, 0 < t.tokens.length := fun t ht => hpos t (by simp [ht])
    rw [packRunCore_cons]
    by_cases hc : maxLen < st.buffer_tokens.length + s.tokens.length
    · rw [packStepCore_emit_eq maxLen st s hc]
      have hInv' : SumInv (⟨s.tokens, s.is_completition, [s.tokens.length]⟩ : PackState) := by
        simp [SumInv]
      obtain ⟨ht, hb⟩ := ih _ hInv' hrest
      refine ⟨ht, ?_⟩
      intro b hb'
      simp only [Option.toList_some, List.mem_append, List.mem_singleton] at hb'
      rcases hb' with hb' | hb'
      · subst hb'
        simp [sliceDropLast_append_self _ _ hps]
        exact hInv
      · exact hb b hb'
    · rw [packStepCore_noemit_eq maxLen st s hc]
      have hInv' : SumInv (packAppend st s) := by
        simp [SumInv, packAppend, List.length_append]
        unfold SumInv at hInv
        omega
      obtain ⟨ht, hb⟩ := ih _ hInv' hrest
      refine ⟨ht, ?_⟩
      intro b hb'
      simp only [Option.toList_none, List.nil_append] at hb'
      exact hb b hb'

/-- C2: for every batch the packing path emits, the recorded sample lengths
sum to the length of the emitted window's `input_ids`: no token fed into the
buffer is dropped or duplicated at emission (every sample assumed nonempty;
a zero-length sample can never trigger the overflow check from a compliant
buffer, and would trip the code's own debug assertion otherwise). -/
theorem pack_emission_preserves_token_count (cfg : Config) (ss : List Sample)
    (hpos : ∀ s ∈ ss, 0 < s.tokens.length) :
    ∀ b ∈ (packRunCore (max_buffer_token_len cfg) packInit ss).2,
      b.sample_lengths.sum = (windowOf cfg b).input_ids.length := by
  have h := packRunCore_sum (max_buffer_token_len cfg) ss packInit rfl hpos
  exact fun b hb => h.2 b hb

/-- Witness for C2 at a concrete stream: `sequence_length = 3`, samples of
lengths `[2, 2, 1]`; the third sample overflows and a 4-token window with
recorded lengths `[2, 2]` is emitted. -/
theorem pack_emission_preserves_token_count_witness :
    (∀ s ∈ [(⟨[1, 2], [true, true]⟩ : Sample), ⟨[3, 4], [true, true]⟩,
        ⟨[5], [true]⟩], 0 < s.tokens.length) ∧
    ∀ b ∈ (packRunCore (max_buffer_token_len ⟨3, true, true, 1, 0⟩) packInit
        [(⟨[1, 2], [true, true]⟩ : Sample), ⟨[3, 4], [true, true]⟩, ⟨[5], [true]⟩]).2,
      b.sample_lengths.sum = (windowOf ⟨3, true, true, 1, 0⟩ b).input_ids.length :=
  ⟨by decide,
   pack_emission_preserves_token_count ⟨3, true, true, 1, 0⟩
     [⟨[1, 2], [true, true]⟩, ⟨[3, 4], [true, true]⟩, ⟨[5], [true]⟩] (by decide)⟩

/-- C5: the buffer invariant `sum(sample_lengths) == len(tokens) ==
len(is_completion)` holds after the append phase and after the full packing
step (emission / reset included), given the tokenizer contract for the
incoming sample. -/
theorem packStep_preserves_buffer_invariant (cfg : Config) (st : PackState)
    (s : Sample) (hInv : BufInv st) (hm : TokLenMatch s) :
    BufInv (packAppend st s) ∧ BufInv ((packStep cfg st s).1) := by
  unfold TokLenMatch at hm
  have happ : BufInv (packAppend st s) := by
    unfold BufInv packAppend at *
    simp [List.length_append, hInv.1, hInv.2, hm]
  refine ⟨happ, ?_⟩
  by_cases hc : max_buffer_token_len cfg < st.buffer_tokens.length + s.tokens.length
  · rw [packStep_eq, packStepCore_emit_eq _ _ _ hc]
    unfold BufInv
    simp [hm]
  · rw [packStep_eq, packStepCore_noemit_eq _ _ _ hc]
    exact happ

/-- Witness for C5 at a concrete state and sample. -/
theorem packStep_preserves_buffer_invariant_witness :
    BufInv packInit ∧ TokLenMatch ⟨[1], [true]⟩ ∧
    (BufInv (packAppend packInit ⟨[1], [true]⟩) ∧
     BufInv ((packStep ⟨3, true, true, 1, 0⟩ packInit ⟨[1], [true]⟩).1)) :=
  ⟨⟨rfl, rfl⟩, rfl,
   packStep_preserves_buffer_invariant ⟨3, true, true, 1, 0⟩ packInit
     ⟨[1], [true]⟩ ⟨rfl, rfl⟩ rfl⟩

/-- C6: whenever the packing step emits a window, the buffer immediately
afterwards contains exactly the most recently appended sample: its tokens,
its completion flags, and the singleton length list. -/
theorem packStep_emit_resets_buffer (cfg : Config) (st : PackState) (s : Sample)
    (h : ((packStep cfg st s).2).isSome) :
    (packStep cfg st s).1 = ⟨s.tokens, s.is_completition, [s.tokens.length]⟩ := by
  by_cases hc : max_buffer_token_len cfg < st.buffer_tokens.length + s.tokens.length
  · rw [packStep_eq, packStepCore_emit_eq _ _ _ hc]
  · rw [packStep_eq, packStepCore_noemit_eq _ _ _ hc] at h
    simp at h

/-- Witness for C6: a 3-token sample overflows `sequence_length = 1` and the
post-emission buffer is exactly that sample. -/
theorem packStep_emit_resets_buffer_witness :
    ((packStep ⟨1, true, true, 1, 0⟩ packInit ⟨[5, 6, 7], [true, true, true]⟩).2).isSome ∧
    (packStep ⟨1, true, true, 1, 0⟩ packInit ⟨[5, 6, 7], [true, true, true]⟩).1 =
      ⟨[5, 6, 7], [true, true, true], [3]⟩ :=
  ⟨by decide,
   packStep_emit_resets_buffer ⟨1, true, true, 1, 0⟩ packInit
     ⟨[5, 6, 7], [true, true, true]⟩ (by decide)⟩

end ChatData

namespace ChatData

/-! ### Window length invariants (C1) -/

/-- Properties of an emitted batch that make the window well-formed. -/
def BatchOK (cfg : Config) (b : PackedBatch) : Prop :=
  b.sample_completitions.length = b.sample_tokens.length ∧
  b.sample_lengths.sum = b.sample_tokens.length ∧
  b.sample_tokens.length ≤ cfg.sequence_length + 1

/-- The buffer invariant together with the window-capacity bound. -/
def FullInv (cfg : Config) (st : PackState) : Prop :=
  BufInv st ∧ st.buffer_tokens.length ≤ cfg.sequence_length + 1

theorem packRunCore_full (cfg : Config) (ss : List Sample) : ∀ st : PackState,
    FullInv cfg st →
    (∀ s ∈ ss, TokLenMatch s ∧ 0 < s.tokens.length ∧ SampleFits cfg s) →
    FullInv cfg (packRunCore (max_buffer_token_len cfg) st ss).1 ∧
    ∀ b ∈ (packRunCore (max_buffer_token_len cfg) st ss).2, BatchOK cfg b := by
  induction ss with
  | nil =>
    intro st hInv _
    exact ⟨hInv, by simp [packRunCore_nil]⟩
  | cons s ss ih =>
    intro st hInv hgood
    obtain ⟨hm, hps, hfit⟩ := hgood s (by simp)
    have hrest : ∀ t ∈ ss, TokLenMatch t ∧ 0 < t.tokens.length ∧ SampleFits cfg t :=
      fun t ht => hgood t (by simp [ht])
    rw [packRunCore_cons]
    by_cases hc : max_buffer_token_len cfg < st.buffer_tokens.length + s.tokens.length
    · rw [packStepCore_emit_batch _ _ _ hps hm hc]
      have hInv' : FullInv cfg
          (⟨s.tokens, s.is_completition, [s.tokens.length]⟩ : PackState) := by
        unfold FullInv BufInv
        unfold TokLenMatch at hm
        unfold SampleFits at hfit
        exact ⟨⟨by simp, hm⟩, hfit⟩
      obtain ⟨ht, hb⟩ := ih _ hInv' hrest
      refine ⟨ht, ?_⟩
      intro b hb'
      simp only [Option.toList_some, List.mem_append, List.mem_singleton] at hb'
      rcases hb' with hb' | hb'
      · subst hb'
        exact ⟨hInv.1.2.symm, hInv.1.1, hInv.2⟩
      · exact hb b hb'
    · rw [packStepCore_noemit_eq _ _ _ hc]
      obtain ⟨⟨h1, h2⟩, h3⟩ := hInv
      have hInv' : FullInv cfg (packAppend st s) := by
        unfold FullInv BufInv packAppend
        unfold TokLenMatch at hm
        unfold max_buffer_token_len at hc
        simp only [List.length_append, List.sum_append, List.sum_cons, List.sum_nil]
        refine ⟨⟨by omega, by omega⟩, by omega⟩
      obtain ⟨ht, hb⟩ := ih _ hInv' hrest
      refine ⟨ht, ?_⟩
      intro b hb'
      simp only [Option.toList_none, List.nil_append] at hb'
      exact hb b hb'

theorem windowOf_lengths (cfg : Config) (b : PackedBatch) (h : BatchOK cfg b) :
    (windowOf cfg b).input_ids.length = (windowOf cfg b).label_mask.length ∧
    (windowOf cfg b).input_ids.length = (windowOf cfg b).position_ids.length ∧
    (windowOf cfg b).input_ids.length ≤ cfg.sequence_length + 1 := by
  obtain ⟨h1, h2, h3⟩ := h
  unfold windowOf
  refine ⟨?_, ?_, h3⟩
  · simp [create_labels_length cfg _ _ h1]
  · simp [create_position_ids_length, h2]

/-- C1 (amended): every window emitted by the packing path has `input_ids`,
`label_mask` and `position_ids` of one common length, and when every sample
of the stream satisfies the tokenizer contract, is nonempty, and itself fits
in `sequence_length + 1` tokens, that length is at most `sequence_length + 1`
(the bound fails for over-length samples, see the counterexample). -/
theorem packed_window_lengths (cfg : Config) (ss : List Sample)
    (hgood : ∀ s ∈ ss, TokLenMatch s ∧ 0 < s.tokens.length ∧ SampleFits cfg s) :
    ∀ w ∈ (packRun cfg packInit ss).2,
      w.input_ids.length = w.label_mask.length ∧
      w.input_ids.length = w.position_ids.length ∧
      w.input_ids.length ≤ cfg.sequence_length + 1 := by
  intro w hw
  rw [packRun_eq_core] at hw
  obtain ⟨b, hb, rfl⟩ := List.mem_map.mp hw
  have h := packRunCore_full cfg ss packInit ⟨⟨rfl, rfl⟩, by simp [packInit]⟩ hgood
  exact windowOf_lengths cfg b (h.2 b hb)

/-- Witness for C1 (amended) at the `[100, 50, 80]` stream is below; here a
small concrete stream: `sequence_length = 3`, sample lengths `[2, 2, 1]`. -/
theorem packed_window_lengths_witness :
    (∀ s ∈ [(⟨[1, 2], [true, true]⟩ : Sample), ⟨[3, 4], [false, true]⟩,
        ⟨[5], [true]⟩], TokLenMatch s ∧ 0 < s.tokens.length ∧
        SampleFits ⟨3, true, true, 1, 0⟩ s) ∧
    ∀ w ∈ (packRun ⟨3, true, true, 1, 0⟩ packInit
        [(⟨[1, 2], [true, true]⟩ : Sample), ⟨[3, 4], [false, true]⟩,
          ⟨[5], [true]⟩]).2,
      w.input_ids.length = w.label_mask.length ∧
      w.input_ids.length = w.position_ids.length ∧
      w.input_ids.length ≤ (⟨3, true, true, 1, 0⟩ : Config).sequence_length + 1 :=
  have hg : ∀ s ∈ [(⟨[1, 2], [true, true]⟩ : Sample), ⟨[3, 4], [false, true]⟩,
      ⟨[5], [true]⟩], TokLenMatch s ∧ 0 < s.tokens.length ∧
      SampleFits ⟨3, true, true, 1, 0⟩ s := by
    intro s hs
    fin_cases hs <;> exact ⟨rfl, by decide, Nat.le_of_sub_eq_zero rfl⟩
  ⟨hg, packed_window_lengths ⟨3, true, true, 1, 0⟩
    [⟨[1, 2], [true, true]⟩, ⟨[3, 4], [false, true]⟩, ⟨[5], [true]⟩] hg⟩

end ChatData

namespace ChatData

/-! ### Over-length samples (C1 counterexample, C3, C10) -/

/-- Concrete over-length scenario: window capacity `sequence_length + 1 = 2`,
a 3-token sample followed by a 1-token sample. -/
def overCfg : Config := ⟨1, true, true, 1, 0⟩

/-- The over-length sample of the concrete scenario. -/
def overA : Sample := ⟨[5, 6, 7], [true, true, true]⟩

/-- The short follow-up sample of the concrete scenario. -/
def overB : Sample := ⟨[9], [true]⟩

/-- C1 (counterexample): the emitted windows of the concrete over-length
stream have `input_ids` of lengths `0` and `3`, and `3` exceeds
`sequence_length + 1 = 2` — the claimed bound fails on the code. -/
theorem packed_window_length_bound_counterexample :
    (packRun overCfg packInit [overA, overB]).2.map
        (fun w => w.input_ids.length) = [0, 3] ∧
    overCfg.sequence_length + 1 = 2 ∧ ¬ (3 ≤ overCfg.sequence_length + 1) := by
  decide

/-- C3 (counterexample): the over-length sample is not perpetually deferred:
the second emitted window is exactly the over-length sample's tokens, emitted
alone, as soon as the next sample arrives. -/
theorem overlength_deferred_counterexample :
    (packRun overCfg packInit [overA, overB]).2.map PackedWindow.input_ids =
      [[], overA.tokens] ∧
    overCfg.sequence_length + 1 < overA.tokens.length := by
  decide

/-- C3 (amended): a sample `a` longer than `sequence_length + 1` arriving at
an empty buffer first triggers the emission of an empty window; on arrival of
the next (nonempty) sample `b` the over-length sample is emitted alone as a
window exceeding the cap, and the buffer is reset to exactly `b`. -/
theorem overlength_sample_emitted_alone (cfg : Config) (a b : Sample)
    (ha : cfg.sequence_length + 1 < a.tokens.length) (hb : 0 < b.tokens.length) :
    (packRun cfg packInit [a, b]).2.map PackedWindow.input_ids =
      [[], a.tokens] ∧
    (packRun cfg packInit [a, b]).1 =
      ⟨b.tokens, b.is_completition, [b.tokens.length]⟩ := by
  have hc1 : max_buffer_token_len cfg <
      packInit.buffer_tokens.length + a.tokens.length := by
    unfold max_buffer_token_len packInit
    simpa [Nat.add_comm] using ha
  have hc2 : max_buffer_token_len cfg < a.tokens.length + b.tokens.length := by
    unfold max_buffer_token_len
    omega
  rw [packRun_eq_core, packRunCore_cons, packStepCore_emit_eq _ _ _ hc1]
  simp only
  rw [packRunCore_cons]
  simp only
  rw [packStepCore_emit_eq _ _ _ hc2, packRunCore_nil]
  simp [packInit, windowOf, sliceDropLast_self, sliceDropLast_append_self _ _ hb]

/-- Witness for C3 (amended) at the concrete over-length scenario. -/
theorem overlength_sample_emitted_alone_witness :
    overCfg.sequence_length + 1 < overA.tokens.length ∧
    0 < overB.tokens.length ∧
    ((packRun overCfg packInit [overA, overB]).2.map PackedWindow.input_ids =
        [[], overA.tokens] ∧
      (packRun overCfg packInit [overA, overB]).1 =
        ⟨overB.tokens, overB.is_completition, [overB.tokens.length]⟩) :=
  ⟨by decide, by decide,
   overlength_sample_emitted_alone overCfg overA overB (by decide) (by decide)⟩

/-- C10: a first sample longer than `sequence_length + 1` appended to the
empty buffer makes the overflow check fire immediately, and the packing path
yields a window whose `input_ids` is empty. -/
theorem overlength_first_sample_emits_empty_window (cfg : Config) (s : Sample)
    (h : cfg.sequence_length + 1 < s.tokens.length) :
    ((packStep cfg packInit s).2).map PackedWindow.input_ids = some [] := by
  have hc : max_buffer_token_len cfg <
      packInit.buffer_tokens.length + s.tokens.length := by
    unfold max_buffer_token_len packInit
    simpa [Nat.add_comm] using h
  rw [packStep_eq, packStepCore_emit_eq _ _ _ hc]
  simp [windowOf, packInit, sliceDropLast_self]

/-- Witness for C10 at the concrete over-length scenario. -/
theorem overlength_first_sample_emits_empty_window_witness :
    overCfg.sequence_length + 1 < overA.tokens.length ∧
    ((packStep overCfg packInit overA).2).map PackedWindow.input_ids = some [] :=
  ⟨by decide,
   overlength_first_sample_emits_empty_window overCfg overA (by decide)⟩

end ChatData

namespace ChatData

/-! ### The [100, 50, 80] scenario (C4) -/

/-- Configuration of the spec's buffer-overflow scenario:
`sequence_length = 150`, so the window capacity is `151`. -/
def c4Cfg : Config := ⟨150, true, true, 1, 0⟩

/-- First sample of the scenario: 100 tokens. -/
def c4s1 : Sample := ⟨(List.range 100).map Int.ofNat, List.replicate 100 true⟩

/-- Second sample of the scenario: 50 tokens. -/
def c4s2 : Sample :=
  ⟨(List.range 50).map (fun n => Int.ofNat (100 + n)), List.replicate 50 true⟩

/-- Third sample of the scenario: 80 tokens. -/
def c4s3 : Sample :=
  ⟨(List.range 80).map (fun n => Int.ofNat (150 + n)), List.replicate 80 true⟩

set_option maxRecDepth 100000 in
/-- C4: with `sequence_length = 150` and sample lengths `[100, 50, 80]`, no
window is emitted after the first two samples; the third sample's arrival
emits exactly one window holding the first two samples' 150 tokens with
recorded sample lengths `[100, 50]`, and the buffer is left holding exactly
the third sample (80 tokens, length list `[80]`). -/
theorem pack_scenario_100_50_80 :
    (packRun c4Cfg packInit [c4s1]).2 = [] ∧
    (packRun c4Cfg packInit [c4s1, c4s2]).2 = [] ∧
    (packRunCore (max_buffer_token_len c4Cfg) packInit [c4s1, c4s2, c4s3]).2.map
        PackedBatch.sample_lengths = [[100, 50]] ∧
    (packRun c4Cfg packInit [c4s1, c4s2, c4s3]).2.map PackedWindow.input_ids =
      [c4s1.tokens ++ c4s2.tokens] ∧
    (c4s1.tokens ++ c4s2.tokens).length = 150 ∧
    (packRun c4Cfg packInit [c4s1, c4s2, c4s3]).1 =
      ⟨c4s3.tokens, c4s3.is_completition, [80]⟩ ∧
    c4s3.tokens.length = 80 := by
  exact ⟨rfl, rfl, rfl, rfl, rfl, rfl, rfl⟩

/-! ### Non-packing path (C7) -/

/-- C7: the non-packing path emits `input_ids`, `input_mask` and `label_mask`
of one common length: the sample length padded up to a multiple of
`sp_chunks`, plus one extra trailing pad position exactly when
`sp_chunks > 1`. -/
theorem nonPackItem_lengths (cfg : Config) (s : Sample)
    (h : s.tokens.length = s.is_completition.length) :
    (nonPackItem cfg s).input_ids.length = (nonPackItem cfg s).input_mask.length ∧
    (nonPackItem cfg s).input_mask.length = (nonPackItem cfg s).label_mask.length ∧
    (nonPackItem cfg s).input_ids.length =
      (if s.tokens.length % sp_chunks cfg.sp_ranks_size = 0 then s.tokens.length
       else s.tokens.length +
         (sp_chunks cfg.sp_ranks_size - s.tokens.length % sp_chunks cfg.sp_ranks_size)) +
      (if 1 < sp_chunks cfg.sp_ranks_size then 1 else 0) := by
  have hcl : (create_labels cfg s.tokens s.is_completition).length = s.tokens.length :=
    create_labels_length cfg _ _ h.symm
  unfold nonPackItem
  by_cases h0 : s.tokens.length % sp_chunks cfg.sp_ranks_size = 0 <;>
    by_cases h1 : 1 < sp_chunks cfg.sp_ranks_size <;>
    simp [h0, h1, hcl, List.length_append] <;>
    omega

/-- Witness for C7: the spec's literal example, a 5-token sample with
`sp_ranks_size = 2` (`sp_chunks = 4`), emitted at the common length `9`. -/
theorem nonPackItem_lengths_witness :
    (⟨[1, 2, 3, 4, 5], [false, false, true, true, true]⟩ : Sample).tokens.length =
      (⟨[1, 2, 3, 4, 5], [false, false, true, true, true]⟩ : Sample).is_completition.length ∧
    (nonPackItem ⟨150, true, true, 2, 0⟩
        ⟨[1, 2, 3, 4, 5], [false, false, true, true, true]⟩).input_ids.length = 9 ∧
    ((nonPackItem ⟨150, true, true, 2, 0⟩
          ⟨[1, 2, 3, 4, 5], [false, false, true, true, true]⟩).input_ids.length =
        (nonPackItem ⟨150, true, true, 2, 0⟩
          ⟨[1, 2, 3, 4, 5], [false, false, true, true, true]⟩).input_mask.length ∧
      (nonPackItem ⟨150, true, true, 2, 0⟩
          ⟨[1, 2, 3, 4, 5], [false, false, true, true, true]⟩).input_mask.length =
        (nonPackItem ⟨150, true, true, 2, 0⟩
          ⟨[1, 2, 3, 4, 5], [false, false, true, true, true]⟩).label_mask.length ∧
      (nonPackItem ⟨150, true, true, 2, 0⟩
          ⟨[1, 2, 3, 4, 5], [false, false, true, true, true]⟩).input_ids.length =
        (if (5 : Nat) % sp_chunks 2 = 0 then 5
         else 5 + (sp_chunks 2 - (5 : Nat) % sp_chunks 2)) +
        (if 1 < sp_chunks 2 then 1 else 0)) :=
  ⟨rfl, rfl,
   nonPackItem_lengths ⟨150, true, true, 2, 0⟩
     ⟨[1, 2, 3, 4, 5], [false, false, true, true, true]⟩ rfl⟩

/-! ### Source restart (C8) -/

/-- C8: when the source is exhausted (`idx = records.length`), the next
emitter step behaves exactly like a step at the source's first record with
the very same packing buffers: the restart changes only the pull position,
never the buffer state. -/
theorem emitter_restart_preserves_buffer (cfg : Config) (records : List Sample)
    (p : PackState) (h : 0 < records.length) :
    emitterStep cfg records ⟨p, records.length⟩ = emitterStep cfg records ⟨p, 0⟩ ∧
    emitterStep cfg records ⟨p, records.length⟩ =
      (⟨(packStep cfg p (records.get ⟨0, h⟩)).1, 1⟩,
       (packStep cfg p (records.get ⟨0, h⟩)).2) := by
  have hget : records[0]? = some (records.get ⟨0, h⟩) := by
    simp [List.getElem?_eq_getElem h, List.get_eq_getElem]
  unfold emitterStep
  simp only [Nat.lt_irrefl, if_false, if_pos h, hget]
  exact ⟨trivial, trivial⟩

/-- Witness for C8: a one-record source at the exhaustion point, mid-pack
buffer carried across the restart. -/
theorem emitter_restart_preserves_buffer_witness :
    0 < [(⟨[9], [true]⟩ : Sample)].length ∧
    (emitterStep ⟨3, true, true, 1, 0⟩ [(⟨[9], [true]⟩ : Sample)]
        ⟨⟨[1], [true], [1]⟩, [(⟨[9], [true]⟩ : Sample)].length⟩ =
      emitterStep ⟨3, true, true, 1, 0⟩ [(⟨[9], [true]⟩ : Sample)]
        ⟨⟨[1], [true], [1]⟩, 0⟩ ∧
      emitterStep ⟨3, true, true, 1, 0⟩ [(⟨[9], [true]⟩ : Sample)]
        ⟨⟨[1], [true], [1]⟩, [(⟨[9], [true]⟩ : Sample)].length⟩ =
        (⟨(packStep ⟨3, true, true, 1, 0⟩ ⟨[1], [true], [1]⟩
            ([(⟨[9], [true]⟩ : Sample)].get ⟨0, by decide⟩)).1, 1⟩,
         (packStep ⟨3, true, true, 1, 0⟩ ⟨[1], [true], [1]⟩
            ([(⟨[9], [true]⟩ : Sample)].get ⟨0, by decide⟩)).2)) :=
  ⟨by decide,
   emitter_restart_preserves_buffer ⟨3, true, true, 1, 0⟩ [⟨[9], [true]⟩]
     ⟨[1], [true], [1]⟩ (by decide)⟩

/-! ### Determinism (C9) -/

/-- C9: the packing algorithm is a pure function of its configuration,
initial buffer state and input stream: two runs over equal deterministic
inputs emit equal window sequences, in the same order. -/
theorem packRun_deterministic (cfg cfg' : Config) (st st' : PackState)
    (ss ss' : List Sample) (hc : cfg = cfg') (hs : st = st') (hss : ss = ss') :
    (packRun cfg st ss).2 = (packRun cfg' st' ss').2 := by
  subst hc
  subst hs
  subst hss
  rfl

/-- Witness for C9 at the concrete over-length stream. -/
theorem packRun_deterministic_witness :
    overCfg = overCfg ∧ packInit = packInit ∧
    ([overA, overB] : List Sample) = [overA, overB] ∧
    (packRun overCfg packInit [overA, overB]).2 =
      (packRun overCfg packInit [overA, overB]).2 :=
  ⟨rfl, rfl, rfl,
   packRun_deterministic overCfg overCfg packInit packInit [overA, overB]
     [overA, overB] rfl rfl rfl⟩

end ChatData
